import Mathlib

/-!
Verification development for the Volcanic-Interpretation-Workbench repository
(file src/app/data_utils.py).

Shallow embedding conventions:
* Calendar dates are integers counting days since 1970-01-01 (so date
  subtraction in pandas, `(second_date - first_date).dt.days`, is plain
  integer subtraction).  For example, 2020-01-01 is day 18262 and
  2020-01-13 is day 18274.
* Numeric cell values (coherence / insar_pair) are rationals; missing
  values (NaN in pandas) are `Option.none`.  Rounding to two decimals,
  `DataFrame.round(2)`, is modelled as exact rational rounding to the
  nearest multiple of 1/100 (binary floating point artefacts are
  idealised away).
* A pandas wide DataFrame is modelled by the `Wide` structure: the list
  of row labels (`delta_days` index), the list of column labels
  (`second_date` columns), and the list of non-null cells
  `(row, column, value)`.  A cell absent from the list is NaN.
* Code that can raise is modelled with `Option`/`Except`; the `none` /
  `.error` result marks the raising execution path.
-/

/-- Insert an integer into a (sorted) list, keeping ascending order. -/
def insortInt (x : Int) : List Int → List Int
  | [] => [x]
  | y :: ys => if x ≤ y then x :: y :: ys else y :: insortInt x ys

/-- Ascending insertion sort for integer label lists (model of the sorted
row/column indexes that pandas `pivot` and `sort_index` produce). -/
def sortInts (l : List Int) : List Int := l.foldr insortInt []

/-- Long-form pair record of data_utils.py: one row of the coherence /
InSAR-pair tables with columns `first_date`, `second_date` and the value
column (`coherence` resp. `insar_pair`); the value is `none` for NaN. -/
structure LongRec where
  first_date : Int
  second_date : Int
  value : Option ℚ
deriving DecidableEq, Repr

/-- The `delta_days` column computed in `plot_coherence`:
`(second_date - first_date).dt.days`. -/
def deltaDays (r : LongRec) : Int := r.second_date - r.first_date

/-- Wide pivoted matrix: row labels (`delta_days`), column labels
(`second_date`), and the non-null cells `(row, col, value)`. -/
structure Wide where
  rows : List Int
  cols : List Int
  cells : List (Int × Int × ℚ)
deriving DecidableEq, Repr

/-- Row `r` of the matrix has at least one non-null cell
(pandas: `m.max(axis=1)[r]` is not NaN). -/
def hasRow (m : Wide) (r : Int) : Bool := m.cells.any (fun c => c.1 == r)

/-- Column `c` of the matrix has at least one non-null cell
(pandas: `m.max(axis=0)[c]` is not NaN). -/
def hasCol (m : Wide) (c : Int) : Bool := m.cells.any (fun x => x.2.1 == c)

/-- Model of `DataFrame.pivot` with index "delta_days", columns "second_date",
and the given value column: sorted distinct row/column labels, one non-null cell per
record with a non-null value.  pandas raises `ValueError` on duplicate
`(index, column)` keys, modelled by `none`. -/
def pivotLong (l : List LongRec) : Option Wide :=
  if (l.map (fun r => (deltaDays r, r.second_date))).Nodup then
    some ⟨sortInts ((l.map deltaDays).dedup),
          sortInts ((l.map (fun r => r.second_date)).dedup),
          l.filterMap (fun r => r.value.map (fun v => (deltaDays r, r.second_date, v)))⟩
  else none

/-- Model of `wide.loc[0, :] = np.NaN` followed by `sort_index()`: row
label 0 is added to the (sorted) index when absent, and every cell of
row 0 is overwritten with NaN. -/
def setZeroRow (m : Wide) : Wide :=
  ⟨if (0 : Int) ∈ m.rows then m.rows else insortInt 0 m.rows,
   m.cols,
   m.cells.filter (fun c => !(c.1 == 0))⟩

/-- Exact rounding to two decimal places, the model of `round(2)`. -/
def round2 (q : ℚ) : ℚ := ((round (q * 100) : ℤ) : ℚ) / 100

/-- Apply `round(2)` to every non-null cell of the matrix. -/
def roundWide (m : Wide) : Wide :=
  ⟨m.rows, m.cols, m.cells.map (fun c => (c.1, c.2.1, round2 c.2.2))⟩

/-- Edge trimming of the coherence variant `pivot_and_clean`
(data_utils.py lines 446-454): rows are kept when their label lies in
`[0, L]` where `L` is the last row label carrying a non-null value, and
columns are kept when their label lies between the first and the last
column labels carrying a non-null value.  When the matrix is entirely
null all three bounds are `None` in pandas and the index comparison with
`None` raises `TypeError`; that path is `none` here. -/
def trimCoh (m : Wide) : Option Wide :=
  match (m.rows.filter (fun r => hasRow m r)).getLast?,
        (m.cols.filter (fun c => hasCol m c)).head?,
        (m.cols.filter (fun c => hasCol m c)).getLast? with
  | some lastRow, some firstCol, some lastCol =>
      some ⟨m.rows.filter (fun r => decide (0 ≤ r) && decide (r ≤ lastRow)),
            m.cols.filter (fun c => decide (firstCol ≤ c) && decide (c ≤ lastCol)),
            m.cells.filter (fun x =>
              (decide (0 ≤ x.1) && decide (x.1 ≤ lastRow)) &&
              (decide (firstCol ≤ x.2.1) && decide (x.2.1 ≤ lastCol)))⟩
  | _, _, _ => none

/-- Edge trimming of the InSAR-pair variant `pivot_and_clean_insar`
(data_utils.py lines 469-475): `dropna` with how="all" on each axis followed
by a label slice `.loc[first:last, first:last]`, i.e. on the pipeline
sorted labels, rows/columns between the first and last labels carrying a
non-null value.  An all-null matrix makes `dropna(...).index[0]` raise
`IndexError`; that path is `none` here. -/
def trimInsar (m : Wide) : Option Wide :=
  match (m.rows.filter (fun r => hasRow m r)).head?,
        (m.rows.filter (fun r => hasRow m r)).getLast?,
        (m.cols.filter (fun c => hasCol m c)).head?,
        (m.cols.filter (fun c => hasCol m c)).getLast? with
  | some firstRow, some lastRow, some firstCol, some lastCol =>
      some ⟨m.rows.filter (fun r => decide (firstRow ≤ r) && decide (r ≤ lastRow)),
            m.cols.filter (fun c => decide (firstCol ≤ c) && decide (c ≤ lastCol)),
            m.cells.filter (fun x =>
              (decide (firstRow ≤ x.1) && decide (x.1 ≤ lastRow)) &&
              (decide (firstCol ≤ x.2.1) && decide (x.2.1 ≤ lastCol)))⟩
  | _, _, _, _ => none

/-- `pivot_and_clean` (data_utils.py lines 434-455): pivot, force-insert
the null `delta_days = 0` row, sort the index, round to two decimals,
trim empty edges (coherence bounds). -/
def pivot_and_clean (coh_long : List LongRec) : Option Wide :=
  (pivotLong coh_long).bind (fun m => trimCoh (roundWide (setZeroRow m)))

/-- `pivot_and_clean_insar` (data_utils.py lines 458-476): pivot,
force-insert the null `delta_days = 0` row, sort the index, round to two
decimals, trim empty edges (InSAR slice bounds). -/
def pivot_and_clean_insar (insar_long : List LongRec) : Option Wide :=
  (pivotLong insar_long).bind (fun m => trimInsar (roundWide (setZeroRow m)))

/-! ### Reference-date matrix (`pivot_and_clean_dates`) -/

/-- Wide matrix of formatted reference dates: row labels (`delta_days`),
column labels (`second_date`), and non-null cells `(row, col, text)`. -/
structure DateWide where
  rows : List Int
  cols : List Int
  cells : List (Int × Int × String)
deriving DecidableEq, Repr

/-- Month abbreviation used by `strftime("%b ...")`. -/
def monthAbbrev (m : Nat) : String :=
  match m with
  | 1 => "Jan" | 2 => "Feb" | 3 => "Mar" | 4 => "Apr" | 5 => "May" | 6 => "Jun"
  | 7 => "Jul" | 8 => "Aug" | 9 => "Sep" | 10 => "Oct" | 11 => "Nov" | _ => "Dec"

/-- Zero-padded two-digit rendering used by `strftime("%d")`. -/
def pad2 (n : Nat) : String := if n < 10 then "0" ++ toString n else toString n

/-- Convert a day count since 1970-01-01 to `(year, month, day)`
(proleptic Gregorian calendar, standard civil-from-days algorithm). -/
def civilFromDays (z0 : Int) : Int × Nat × Nat :=
  let z := z0 + 719468
  let era := Int.ediv z 146097
  let doe := (Int.emod z 146097).toNat
  let yoe := (doe - doe / 1460 + doe / 36524 - doe / 146096) / 365
  let y := era * 400 + yoe
  let doy := doe - (365 * yoe + yoe / 4 - yoe / 100)
  let mp := (5 * doy + 2) / 153
  let d := doy - (153 * mp + 2) / 5 + 1
  let m := if mp < 10 then mp + 3 else mp - 9
  (if m ≤ 2 then y + 1 else y, m, d)

/-- Model of `pd.to_datetime(x).strftime("%b %d, %Y")`, e.g. day 18262 is
rendered "Jan 01, 2020". -/
def formatDate (d : Int) : String :=
  let c := civilFromDays d
  monthAbbrev c.2.1 ++ " " ++ pad2 c.2.2 ++ ", " ++ toString c.1

/-- `pivot_and_clean_dates` (data_utils.py lines 479-497): drop records
with `second_date < first_date`, pivot `first_date` over
`(delta_days, second_date)`, format every non-null cell with
`strftime("%b %d, %Y")`, and keep only the sorted intersection of the
pivoted columns with the columns of the value matrix `coh_wide`. -/
def pivot_and_clean_dates (coh_long : List LongRec) (coh_wide : Wide) : Option DateWide :=
  let dropped := coh_long.filter (fun r => !decide (r.second_date < r.first_date))
  if (dropped.map (fun r => (deltaDays r, r.second_date))).Nodup then
    let commonCols := (sortInts ((dropped.map (fun r => r.second_date)).dedup)).filter
      (fun c => decide (c ∈ coh_wide.cols))
    some ⟨sortInts ((dropped.map deltaDays).dedup),
          commonCols,
          (dropped.filter (fun r => decide (r.second_date ∈ commonCols))).map
            (fun r => (deltaDays r, r.second_date, formatDate r.first_date))⟩
  else none

/-! ### CSV readers (`_read_coherence`, `_read_insar_pair`) -/

/-- The `wrong_order` mask of `_read_coherence` / `_read_insar_pair`:
`(second_date < first_date) & value.notnull()`. -/
def wrongOrder (r : LongRec) : Bool :=
  decide (r.second_date < r.first_date) && r.value.isSome

/-- `_read_coherence` (data_utils.py lines 844-857): `None` input gives
`None`; otherwise the parsed table is returned unless some record has a
non-null value with `second_date < first_date`, in which case a
`RuntimeError` is raised (modelled by `.error`). -/
def read_coherence : Option (List LongRec) → Except String (Option (List LongRec))
  | none => .ok none
  | some coh =>
      if coh.any wrongOrder then
        .error "Some intereferogram dates not ordered as expected"
      else .ok (some coh)

/-- `_read_insar_pair` (data_utils.py lines 860-881): same date-order
check as `_read_coherence` on the InSAR-pair table (a missing file is
modelled as the `none` input, which is returned as `None`). -/
def read_insar_pair : Option (List LongRec) → Except String (Option (List LongRec))
  | none => .ok none
  | some insar =>
      if insar.any wrongOrder then
        .error "Some intereferogram dates not ordered as expected"
      else .ok (some insar)

/-! ### Earthquake queries (`get_latest_quakes_chis_fsdn*`) -/

/-- One parsed event row of the FSDN response: coordinates and the
`Time_Delta` column (event age in whole days, as computed by
`-(event_time - now).dt.days`). -/
structure QuakeRow where
  latitude : ℚ
  longitude : ℚ
  time_delta : Int
deriving DecidableEq, Repr

/-- Outcome of the HTTP GET against the FSDN event catalog: a connection
failure, or a response with a status code and (for status 200) the
parsed event rows. -/
inductive FsdnOutcome where
  | connError
  | http (status : Nat) (rows : List QuakeRow)
deriving DecidableEq, Repr

/-- Marker colour from event age (data_utils.py lines 178-185): the
`np.select` over `Time_Delta` with conditions `<= 2`, `2 < _ <= 7`,
`7 < _ <= 31`, `> 31` and values red, orange, yellow, white. -/
def quakeColour (d : Int) : String :=
  if d ≤ 2 then "red"
  else if d ≤ 7 then "orange"
  else if d ≤ 31 then "yellow"
  else "white"

/-- `get_latest_quakes_chis_fsdn` (data_utils.py lines 149-190).  On
connection failure the except branch returns an empty table; on a 200
response the parsed rows are returned with their marker colour (the
unassigned `sort_values` result is discarded, so row order is kept); on
any other status the local `df` was never assigned and the final
`return df` raises `UnboundLocalError`, modelled by `.error`. -/
def get_latest_quakes_chis_fsdn : FsdnOutcome → Except String (List (QuakeRow × String))
  | .connError => .ok []
  | .http status rows =>
      if status = 200 then .ok (rows.map (fun r => (r, quakeColour r.time_delta)))
      else .error "UnboundLocalError: local variable df referenced before assignment"

/-- `get_latest_quakes_chis_fsdn_site` (data_utils.py lines 193-254):
like the site-less variant but `df` is initialised to an empty table
before the request (so every outcome returns a table) and the rows are
filtered to the ±1 latitude / ±2 longitude box around the target
centre. -/
def get_latest_quakes_chis_fsdn_site (center_latitude center_longitude : ℚ) :
    FsdnOutcome → List (QuakeRow × String)
  | .connError => []
  | .http status rows =>
      if status = 200 then
        (rows.filter (fun r =>
          decide (center_latitude - 1 ≤ r.latitude) &&
          decide (r.latitude ≤ center_latitude + 1) &&
          decide (center_longitude - 2 ≤ r.longitude) &&
          decide (r.longitude ≤ center_longitude + 2))).map
          (fun r => (r, quakeColour r.time_delta))
      else []

/-! ### Summary table (`build_summary_table`) -/

/-- A dynamically-typed pandas cell of the summary table: NaN, a string,
or a boolean (the `Unrest` flag). -/
inductive SCell where
  | null
  | str (s : String)
  | boolv (b : Bool)
deriving DecidableEq, Repr

/-- A GeoJSON feature of the targets response, reduced to the fields
`build_summary_table` reads: `id` and `properties.name_en`. -/
structure GeoFeature where
  id : String
  name_en : String
deriving DecidableEq, Repr

/-- Model of the regex filter `id.str.contains("^A|Edgecumbe")`: the id
starts with "A" or contains "Edgecumbe" anywhere. -/
def idMatch (s : String) : Bool :=
  "A".isPrefixOf s || (s.toList.tails.any (fun t => "Edgecumbe".toList.isPrefixOf t))

/-- Insertion into a list sorted ascending by feature id. -/
def insortFeature (x : GeoFeature) : List GeoFeature → List GeoFeature
  | [] => [x]
  | y :: ys => if (compare x.id y.id).isLE then x :: y :: ys else y :: insortFeature x ys

/-- Model of `sort_values("id")`: insertion sort by feature id. -/
def sortFeatures (l : List GeoFeature) : List GeoFeature := l.foldr insortFeature []

/-- First unrest-table entry for a site name (the left merge on `Site`). -/
def lookupUnrest (table : List (String × Bool)) (site : String) : Option Bool :=
  (table.find? (fun p => p.1 == site)).map (fun p => p.2)

/-- `build_summary_table` (data_utils.py lines 794-841).  The per-site
HTTP lookup and its date formatting are abstracted as `slc`: `some s`
is a successful response whose `last_slc_datetime` is a string,
formatted for display as `s`; `none` covers a per-site connection error
or a non-string datetime, leaving the cell null.  A `None` GeoJSON input
makes `pd.json_normalize` raise `NotImplementedError`, caught by the
except branch, which returns the one-row sentinel table. -/
def build_summary_table (unrest_table : List (String × Bool))
    (slc : String → Option String) (targs_geojson : Option (List GeoFeature)) :
    List String × List (SCell × SCell × SCell) :=
  match targs_geojson with
  | none =>
      (["Site", "Latest SAR Image", "Unrest"],
       [(.str "API Connection Error", .str "API Connection Error",
         .str "API Connection Error")])
  | some feats =>
      let kept := sortFeatures (feats.filter (fun f => idMatch f.id))
      (["Site", "Latest SAR Image", "Unrest"],
       kept.map (fun f =>
         (SCell.str f.name_en,
          match slc f.id with
          | some s => SCell.str s
          | none => SCell.null,
          match lookupUnrest unrest_table f.name_en with
          | some b => SCell.boolv b
          | none => SCell.null)))

/-! ### `parse_dates` -/

/-- Python slice `s[a:b]` for `0 <= a <= b` (clamped at the end). -/
def strSlice (s : String) (a b : Nat) : String :=
  String.mk ((s.toList.drop a).take (b - a))

/-- Python `str.isdigit` restricted to ASCII digits: true on non-empty
all-digit strings. -/
def pyIsDigit (s : String) : Bool := !s.toList.isEmpty && s.toList.all Char.isDigit

/-- Format an 8-digit date block `yyyymmdd` as `yyyy/mm/dd`
(`start_date[:4] / [4:6] / [6:]`). -/
def fmtDate8 (s : String) : String :=
  strSlice s 0 4 ++ "/" ++ strSlice s 4 6 ++ "/" ++ String.mk (s.toList.drop 6)

/-- `parse_dates` (data_utils.py lines 95-146): reject inputs shorter
than 19 characters, slice out `[0:8]` and `[12:20]`, require each slice
to be an 8-character digit string, and format them as
`yyyy/mm/dd - yyyy/mm/dd`.  All failures raise `ValueError`, modelled by
`.error`. -/
def parse_dates (input_string : String) : Except String String :=
  if input_string.length < 19 then
    .error "Input string is too short to contain two valid dates."
  else
    if !(pyIsDigit (strSlice input_string 0 8) &&
         (strSlice input_string 0 8).length == 8) then
      .error ("Invalid start date format: " ++ strSlice input_string 0 8)
    else if !(pyIsDigit (strSlice input_string 12 20) &&
              (strSlice input_string 12 20).length == 8) then
      .error ("Invalid end date format: " ++ strSlice input_string 12 20)
    else
      .ok (fmtDate8 (strSlice input_string 0 8) ++ " - " ++
           fmtDate8 (strSlice input_string 12 20))

/-! ### `calculate_centroid` -/

/-- `calculate_centroid` (data_utils.py lines 380-390): accumulate the
coordinate sums in a loop and divide by the number of points.  For the
empty list the division is `0 / 0`, a `ZeroDivisionError` in Python,
modelled by `none`. -/
def calculate_centroid (coords : List (ℚ × ℚ)) : Option (ℚ × ℚ) :=
  let num_points := coords.length
  let total_x := coords.foldl (fun acc p => acc + p.1) 0
  let total_y := coords.foldl (fun acc p => acc + p.2) 0
  if num_points = 0 then none
  else some (total_x / (num_points : ℚ), total_y / (num_points : ℚ))

/-! ### Helper lemmas about sorted lists and filters -/

theorem sortedFilter {l : List Int} (h : l.Sorted (· ≤ ·)) (p : Int → Bool) :
    (l.filter p).Sorted (· ≤ ·) := by
  induction l with
  | nil => simp
  | cons a t ih =>
    have h' := List.sorted_cons.mp h
    cases hp : p a with
    | true =>
        rw [List.filter_cons, hp, if_pos rfl]
        exact List.sorted_cons.mpr
          ⟨fun b hb => h'.1 b (List.mem_of_mem_filter hb), ih h'.2⟩
    | false =>
        rw [List.filter_cons, hp]
        simpa using ih h'.2

theorem sorted_le_getLast {l : List Int} (h : l.Sorted (· ≤ ·)) :
    ∀ {x : Int}, x ∈ l → ∀ {L : Int}, l.getLast? = some L → x ≤ L := by
  induction l with
  | nil => intro x hx; cases hx
  | cons a t ih =>
    intro x hx L hL
    have h' := List.sorted_cons.mp h
    cases t with
    | nil =>
        have ha : a = L := by simpa using hL
        have hxa : x = a := by simpa using hx
        omega
    | cons b t' =>
        have hL' : (b :: t').getLast? = some L := by
          simpa [List.getLast?_cons_cons] using hL
        rcases List.mem_cons.mp hx with rfl | hxt
        · have hxb : x ≤ b := h'.1 b (List.mem_cons_self _ _)
          have hbL : b ≤ L := ih h'.2 (List.mem_cons_self _ _) hL'
          omega
        · exact ih h'.2 hxt hL'

theorem sorted_head_le {l : List Int} (h : l.Sorted (· ≤ ·)) {x : Int} (hx : x ∈ l)
    {a : Int} (ha : l.head? = some a) : a ≤ x := by
  cases l with
  | nil => cases hx
  | cons b t =>
      have hb : b = a := by simpa using ha
      subst hb
      rcases List.mem_cons.mp hx with rfl | hxt
      · exact le_refl x
      · exact (List.sorted_cons.mp h).1 x hxt

theorem filter_filter_of_imp {α : Type _} (p q : α → Bool) :
    ∀ l : List α, (∀ x ∈ l, q x = true → p x = true) →
      (l.filter p).filter q = l.filter q := by
  intro l
  induction l with
  | nil => intro _; rfl
  | cons a t ih =>
    intro h
    have ht := ih (fun x hx => h x (List.mem_cons_of_mem a hx))
    cases hp : p a with
    | true =>
        cases hq : q a with
        | true => simp [List.filter_cons, hp, hq, ht]
        | false => simp [List.filter_cons, hp, hq, ht]
    | false =>
        cases hq : q a with
        | true => exact absurd (h a (List.mem_cons_self a t) hq) (by simp [hp])
        | false => simp [List.filter_cons, hp, hq, ht]

theorem filter_all_true {α : Type _} (p : α → Bool) :
    ∀ l : List α, (∀ x ∈ l, p x = true) → l.filter p = l := by
  intro l
  induction l with
  | nil => intro _; rfl
  | cons a t ih =>
    intro h
    rw [List.filter_cons, h a (List.mem_cons_self a t), if_pos rfl,
        ih (fun x hx => h x (List.mem_cons_of_mem a hx))]

theorem hasRow_iff (m : Wide) (r : Int) :
    hasRow m r = true ↔ ∃ c ∈ m.cells, c.1 = r := by
  simp [hasRow, List.any_eq_true]

theorem hasCol_iff (m : Wide) (c : Int) :
    hasCol m c = true ↔ ∃ x ∈ m.cells, x.2.1 = c := by
  simp [hasCol, List.any_eq_true]

theorem mem_insortInt {x a : Int} : ∀ {l : List Int}, a ∈ insortInt x l ↔ a = x ∨ a ∈ l := by
  intro l
  induction l with
  | nil => simp [insortInt]
  | cons y ys ih =>
    by_cases hxy : x ≤ y
    · simp [insortInt, hxy]
    · simp [insortInt, hxy, ih]
      tauto

theorem sorted_insortInt {x : Int} : ∀ {l : List Int}, l.Sorted (· ≤ ·) →
    (insortInt x l).Sorted (· ≤ ·) := by
  intro l
  induction l with
  | nil => intro _; simp [insortInt]
  | cons y ys ih =>
    intro h
    have h' := List.sorted_cons.mp h
    by_cases hxy : x ≤ y
    · rw [insortInt, if_pos hxy]
      exact List.sorted_cons.mpr
        ⟨fun b hb => by
          rcases List.mem_cons.mp hb with rfl | hb
          · exact hxy
          · exact le_trans hxy (h'.1 b hb), h⟩
    · rw [insortInt, if_neg hxy]
      exact List.sorted_cons.mpr
        ⟨fun b hb => by
          rcases mem_insortInt.mp hb with rfl | hb
          · omega
          · exact h'.1 b hb, ih h'.2⟩

theorem mem_sortInts {a : Int} : ∀ {l : List Int}, a ∈ sortInts l ↔ a ∈ l := by
  intro l
  induction l with
  | nil => simp [sortInts]
  | cons y ys ih =>
    simp only [sortInts, List.foldr_cons] at *
    rw [mem_insortInt, ih, List.mem_cons]

theorem sorted_sortInts : ∀ (l : List Int), (sortInts l).Sorted (· ≤ ·) := by
  intro l
  induction l with
  | nil => simp [sortInts]
  | cons y ys ih => exact sorted_insortInt ih

theorem foldl_add_eq_sum (f : ℚ × ℚ → ℚ) :
    ∀ (l : List (ℚ × ℚ)) (a : ℚ), l.foldl (fun acc p => acc + f p) a = a + (l.map f).sum := by
  intro l
  induction l with
  | nil => intro a; simp
  | cons x t ih =>
    intro a
    simp only [List.foldl_cons, List.map_cons, List.sum_cons, ih]
    ring

/-! ### Claim theorems: readers, quakes, summary, centroid -/

/-- C2: reading a coherence or InSAR-pair table raises the fatal
data-integrity error exactly when some record has a non-null value and
`second_date < first_date`; otherwise no error is raised. -/
theorem claim_C2_read_raises (recs : List LongRec) :
    ((read_coherence (some recs)).isOk = false ↔
      ∃ r ∈ recs, r.value.isSome = true ∧ r.second_date < r.first_date) ∧
    ((read_insar_pair (some recs)).isOk = false ↔
      ∃ r ∈ recs, r.value.isSome = true ∧ r.second_date < r.first_date) := by
  have key : recs.any wrongOrder = true ↔
      ∃ r ∈ recs, r.value.isSome = true ∧ r.second_date < r.first_date := by
    simp [List.any_eq_true, wrongOrder, and_comm]
  have evalCoh : (read_coherence (some recs)).isOk = false ↔
      recs.any wrongOrder = true := by
    by_cases h : recs.any wrongOrder = true <;>
      simp [read_coherence, h, Except.isOk, Except.toBool]
  have evalInsar : (read_insar_pair (some recs)).isOk = false ↔
      recs.any wrongOrder = true := by
    by_cases h : recs.any wrongOrder = true <;>
      simp [read_insar_pair, h, Except.isOk, Except.toBool]
  exact ⟨evalCoh.trans key, evalInsar.trans key⟩

/-- C3: for the single pair record (2020-01-01, 2020-01-13, 0.9) -- in
day counts, (18262, 18274, 9/10) -- the coherence wide matrix has
exactly the null row `delta_days = 0`, the row `delta_days = 12`, the
single column 2020-01-13 (day 18274), and exactly one non-null cell, at
(12, day 18274), holding 0.90. -/
theorem claim_C3_single_pair :
    pivot_and_clean [⟨18262, 18274, some ((9 : ℚ)/10)⟩] =
      some ⟨[0, 12], [18274], [(12, 18274, (9 : ℚ)/10)]⟩ := by
  have h : round2 ((9 : ℚ)/10) = 9/10 := by norm_num [round2, round_eq]
  simp [pivot_and_clean, pivotLong, deltaDays, setZeroRow, roundWide, trimCoh,
        hasRow, hasCol, sortInts, insortInt, h]

/-- C5: the marker colour of a seismic event is determined by its age in
whole days: at most 2 days gives red, 3 to 7 days orange, 8 to 31 days
yellow, more than 31 days white; every event row of a successful (HTTP
200) query is paired with the colour of its age, and the quoted
instances 1, 5, 15, 40 give red, orange, yellow, white. -/
theorem claim_C5_quake_colour (d : Int) :
    (d ≤ 2 → quakeColour d = "red") ∧
    (3 ≤ d → d ≤ 7 → quakeColour d = "orange") ∧
    (8 ≤ d → d ≤ 31 → quakeColour d = "yellow") ∧
    (31 < d → quakeColour d = "white") ∧
    (∀ rows : List QuakeRow,
      get_latest_quakes_chis_fsdn (.http 200 rows) =
        .ok (rows.map (fun r => (r, quakeColour r.time_delta)))) ∧
    (∀ (clat clon : ℚ) (rows : List QuakeRow),
      ∀ p ∈ get_latest_quakes_chis_fsdn_site clat clon (.http 200 rows),
        p.2 = quakeColour p.1.time_delta) ∧
    quakeColour 1 = "red" ∧ quakeColour 5 = "orange" ∧
    quakeColour 15 = "yellow" ∧ quakeColour 40 = "white" := by
  refine ⟨?h1, ?h2, ?h3, ?h4, fun rows => rfl, ?hsite, rfl, rfl, rfl, rfl⟩
  case hsite =>
    intro clat clon rows p hp
    rw [get_latest_quakes_chis_fsdn_site, if_pos rfl] at hp
    obtain ⟨r, _, rfl⟩ := List.mem_map.mp hp
    rfl
  all_goals
    (intros; simp only [quakeColour]; split_ifs <;> first | rfl | (exfalso; omega))

/-- Witness for C5 at the quoted ages 1, 5, 15 and 40 days. -/
theorem claim_C5_witness :
    quakeColour 1 = "red" ∧ quakeColour 5 = "orange" ∧
    quakeColour 15 = "yellow" ∧ quakeColour 40 = "white" :=
  ⟨(claim_C5_quake_colour 1).1 (by decide),
   (claim_C5_quake_colour 5).2.1 (by decide) (by decide),
   (claim_C5_quake_colour 15).2.2.1 (by decide) (by decide),
   (claim_C5_quake_colour 40).2.2.2.1 (by decide)⟩

/-- C6: on connection failure both quake queries return an empty table;
the site variant also returns an (empty) table on a non-200 status.  But
the site-less `get_latest_quakes_chis_fsdn` never assigns `df` when the
status is not 200, so its `return df` raises `UnboundLocalError` instead
of returning a table -- the code slip the sibling function documents
against ("Initialize df to an empty df to ensure it is always
defined"). -/
theorem claim_C6_quake_errors :
    get_latest_quakes_chis_fsdn .connError = .ok [] ∧
    get_latest_quakes_chis_fsdn (.http 500 []) =
      .error "UnboundLocalError: local variable df referenced before assignment" ∧
    get_latest_quakes_chis_fsdn_site 0 0 .connError = [] ∧
    get_latest_quakes_chis_fsdn_site 0 0 (.http 500 []) = [] :=
  ⟨rfl, rfl, rfl, rfl⟩

/-- C7: a null GeoJSON input makes `build_summary_table` return, without
raising, the one-row sentinel table with columns Site, Latest SAR Image,
Unrest and the value "API Connection Error" in all three cells. -/
theorem claim_C7_summary_sentinel (unrest_table : List (String × Bool))
    (slc : String → Option String) :
    build_summary_table unrest_table slc none =
      (["Site", "Latest SAR Image", "Unrest"],
       [(.str "API Connection Error", .str "API Connection Error",
         .str "API Connection Error")]) := rfl

/-- C10: on a non-empty coordinate list `calculate_centroid` returns the
pair of coordinate means; on the empty list the division by the number
of points is a division by zero (the error path). -/
theorem claim_C10_calculate_centroid (coords : List (ℚ × ℚ)) :
    (coords ≠ [] →
      calculate_centroid coords =
        some ((coords.map Prod.fst).sum / (coords.length : ℚ),
              (coords.map Prod.snd).sum / (coords.length : ℚ))) ∧
    calculate_centroid [] = none := by
  constructor
  · intro hne
    have hx := foldl_add_eq_sum Prod.fst coords 0
    have hy := foldl_add_eq_sum Prod.snd coords 0
    have hlen : coords.length ≠ 0 := by simpa using hne
    simp [calculate_centroid, hlen, hx, hy]
  · rfl

/-- Witness for C10 at the two-point list [(1, 2), (3, 4)], whose
centroid is (2, 3). -/
theorem claim_C10_witness :
    calculate_centroid [((1 : ℚ), (2 : ℚ)), (3, 4)] = some (2, 3) := by
  have h := (claim_C10_calculate_centroid [((1 : ℚ), (2 : ℚ)), (3, 4)]).1 (by simp)
  rw [h]
  norm_num

/-! ### Pipeline lemmas for the zero row and trimming -/

/-- Data-model invariant on a pair-record table: every record with a
non-null value has `second_date >= first_date`. -/
def ValidTable (l : List LongRec) : Prop :=
  ∀ r ∈ l, r.value.isSome = true → r.first_date ≤ r.second_date

theorem trimCoh_eq_some_iff (m w : Wide) :
    trimCoh m = some w ↔ ∃ lastRow firstCol lastCol : Int,
      (m.rows.filter (fun r => hasRow m r)).getLast? = some lastRow ∧
      (m.cols.filter (fun c => hasCol m c)).head? = some firstCol ∧
      (m.cols.filter (fun c => hasCol m c)).getLast? = some lastCol ∧
      w = ⟨m.rows.filter (fun r => decide (0 ≤ r) && decide (r ≤ lastRow)),
           m.cols.filter (fun c => decide (firstCol ≤ c) && decide (c ≤ lastCol)),
           m.cells.filter (fun x =>
             (decide (0 ≤ x.1) && decide (x.1 ≤ lastRow)) &&
             (decide (firstCol ≤ x.2.1) && decide (x.2.1 ≤ lastCol)))⟩ := by
  constructor
  · intro h
    rw [trimCoh] at h
    split at h
    · next lastRow firstCol lastCol hL hF hC =>
        exact ⟨lastRow, firstCol, lastCol, hL, hF, hC, (Option.some.inj h).symm⟩
    · cases h
  · rintro ⟨lastRow, firstCol, lastCol, hL, hF, hC, rfl⟩
    rw [trimCoh, hL, hF, hC]

theorem trimInsar_eq_some_iff (m w : Wide) :
    trimInsar m = some w ↔ ∃ firstRow lastRow firstCol lastCol : Int,
      (m.rows.filter (fun r => hasRow m r)).head? = some firstRow ∧
      (m.rows.filter (fun r => hasRow m r)).getLast? = some lastRow ∧
      (m.cols.filter (fun c => hasCol m c)).head? = some firstCol ∧
      (m.cols.filter (fun c => hasCol m c)).getLast? = some lastCol ∧
      w = ⟨m.rows.filter (fun r => decide (firstRow ≤ r) && decide (r ≤ lastRow)),
           m.cols.filter (fun c => decide (firstCol ≤ c) && decide (c ≤ lastCol)),
           m.cells.filter (fun x =>
             (decide (firstRow ≤ x.1) && decide (x.1 ≤ lastRow)) &&
             (decide (firstCol ≤ x.2.1) && decide (x.2.1 ≤ lastCol)))⟩ := by
  constructor
  · intro h
    rw [trimInsar] at h
    split at h
    · next firstRow lastRow firstCol lastCol hR hL hF hC =>
        exact ⟨firstRow, lastRow, firstCol, lastCol, hR, hL, hF, hC,
               (Option.some.inj h).symm⟩
    · cases h
  · rintro ⟨firstRow, lastRow, firstCol, lastCol, hR, hL, hF, hC, rfl⟩
    rw [trimInsar, hR, hL, hF, hC]

theorem pivotLong_cells {l : List LongRec} {m : Wide} (hp : pivotLong l = some m) :
    ∀ c ∈ m.cells, ∃ r ∈ l, r.value = some c.2.2 ∧ c.1 = deltaDays r ∧
      c.2.1 = r.second_date := by
  rw [pivotLong] at hp
  split at hp
  · intro c hc
    rw [← Option.some.inj hp] at hc
    simp only [List.mem_filterMap, Option.map_eq_some'] at hc
    obtain ⟨r, hrl, v, hv, rfl⟩ := hc
    exact ⟨r, hrl, hv, rfl, rfl⟩
  · cases hp

theorem setZeroRow_zero_mem (m : Wide) : (0 : Int) ∈ (setZeroRow m).rows := by
  rw [setZeroRow]
  split
  · assumption
  · exact mem_insortInt.mpr (Or.inl rfl)

theorem setZeroRow_cells (m : Wide) :
    ∀ c ∈ (setZeroRow m).cells, c ∈ m.cells ∧ c.1 ≠ 0 := by
  intro c hc
  simpa [setZeroRow, List.mem_filter] using hc

theorem roundWide_cells (m : Wide) :
    ∀ c ∈ (roundWide m).cells, ∃ c' ∈ m.cells, c.1 = c'.1 ∧ c.2.1 = c'.2.1 := by
  intro c hc
  simp only [roundWide, List.mem_map] at hc
  obtain ⟨c', hc', rfl⟩ := hc
  exact ⟨c', hc', rfl, rfl⟩

/-- In the matrix that reaches the trimming step of either variant, all
non-null cells of a valid table sit at a strictly positive row label. -/
theorem pipeline_cells_pos {l : List LongRec} {m : Wide} (hv : ValidTable l)
    (hp : pivotLong l = some m) :
    ∀ c ∈ (roundWide (setZeroRow m)).cells, 0 < c.1 := by
  intro c hc
  obtain ⟨c', hc', h1, _⟩ := roundWide_cells _ c hc
  obtain ⟨hc'', hne⟩ := setZeroRow_cells _ c' hc'
  obtain ⟨r, hrl, hval, hdelta, _⟩ := pivotLong_cells hp c' hc''
  have : r.first_date ≤ r.second_date := hv r hrl (by rw [hval]; rfl)
  rw [h1, hdelta]
  rw [hdelta] at hne
  unfold deltaDays at hne ⊢
  omega

/-- Trim-stage bound extraction: the last valid row label is the label
of some non-null cell. -/
theorem hasRow_of_mem_filter {m : Wide} {r : Int}
    (h : r ∈ m.rows.filter (fun r => hasRow m r)) : ∃ c ∈ m.cells, c.1 = r := by
  have := List.of_mem_filter h
  exact (hasRow_iff m r).mp this

/-- Counterexample to C1: for the valid single-record table
(2020-01-01, 2020-01-13, 0.9) the InSAR-pair variant produces a matrix,
and that matrix has no `delta_days = 0` row (the trim slice starts at
the first non-null row, label 12). -/
theorem claim_C1_counterexample :
    pivot_and_clean_insar [⟨18262, 18274, some ((9 : ℚ)/10)⟩] =
      some ⟨[12], [18274], [(12, 18274, (9 : ℚ)/10)]⟩ ∧
    (0 : Int) ∉ ([12] : List Int) := by
  constructor
  · have h : round2 ((9 : ℚ)/10) = 9/10 := by norm_num [round2, round_eq]
    simp [pivot_and_clean_insar, pivotLong, deltaDays, setZeroRow, roundWide,
          trimInsar, hasRow, hasCol, sortInts, insortInt, h]
  · decide

/-- C1 (amended): for every valid pair-record table, a matrix produced
by the coherence variant `pivot_and_clean` contains the row
`delta_days = 0` and that row is entirely null, while a matrix produced
by the InSAR-pair variant `pivot_and_clean_insar` never contains a
`delta_days = 0` row (its trimming drops the leading all-null rows,
including the forced null row 0). -/
theorem claim_C1_zero_row (l : List LongRec) (w : Wide) (hv : ValidTable l) :
    (pivot_and_clean l = some w →
      (0 : Int) ∈ w.rows ∧ ∀ c ∈ w.cells, c.1 ≠ 0) ∧
    (pivot_and_clean_insar l = some w → (0 : Int) ∉ w.rows) := by
  constructor
  · intro heq
    rw [pivot_and_clean] at heq
    cases hpv : pivotLong l with
    | none => rw [hpv] at heq; cases heq
    | some m₀ =>
        rw [hpv, Option.some_bind] at heq
        set M := roundWide (setZeroRow m₀) with hM
        have hpos : ∀ c ∈ M.cells, 0 < c.1 := pipeline_cells_pos hv hpv
        obtain ⟨lastRow, firstCol, lastCol, hL, _, _, rfl⟩ :=
          (trimCoh_eq_some_iff M _).mp heq
        have h0M : (0 : Int) ∈ M.rows := setZeroRow_zero_mem m₀
        have hLpos : 0 < lastRow := by
          obtain ⟨c, hc, hcr⟩ := hasRow_of_mem_filter (List.mem_of_mem_getLast? hL)
          have := hpos c hc
          omega
        refine ⟨?_, ?_⟩
        · refine List.mem_filter.mpr ⟨h0M, ?_⟩
          simp
          omega
        · intro c hc
          have hcM : c ∈ M.cells := List.mem_of_mem_filter hc
          have := hpos c hcM
          omega
  · intro heq
    rw [pivot_and_clean_insar] at heq
    cases hpv : pivotLong l with
    | none => rw [hpv] at heq; cases heq
    | some m₀ =>
        rw [hpv, Option.some_bind] at heq
        set M := roundWide (setZeroRow m₀) with hM
        have hpos : ∀ c ∈ M.cells, 0 < c.1 := pipeline_cells_pos hv hpv
        obtain ⟨firstRow, lastRow, firstCol, lastCol, hR, _, _, _, rfl⟩ :=
          (trimInsar_eq_some_iff M _).mp heq
        have hRpos : 0 < firstRow := by
          obtain ⟨c, hc, hcr⟩ := hasRow_of_mem_filter (List.mem_of_mem_head? hR)
          have := hpos c hc
          omega
        intro h0
        have := (List.mem_filter.mp h0).2
        simp at this
        omega

/-- Witness for C1 at the valid single-record table
(2020-01-01, 2020-01-13, 0.9): the coherence matrix contains the null
row 0, the InSAR matrix does not contain row 0. -/
theorem claim_C1_witness :
    ((0 : Int) ∈ (Wide.mk [0, 12] [18274] [(12, 18274, (9 : ℚ)/10)]).rows ∧
      ∀ c ∈ (Wide.mk [0, 12] [18274] [(12, 18274, (9 : ℚ)/10)]).cells, c.1 ≠ 0) ∧
    (0 : Int) ∉ (Wide.mk [12] [18274] [(12, 18274, (9 : ℚ)/10)]).rows := by
  have hv : ValidTable [⟨18262, 18274, some ((9 : ℚ)/10)⟩] := by
    intro r hr _
    rcases List.mem_singleton.mp hr with rfl
    decide
  have h : round2 ((9 : ℚ)/10) = 9/10 := by norm_num [round2, round_eq]
  refine ⟨(claim_C1_zero_row [⟨18262, 18274, some ((9 : ℚ)/10)⟩]
            (Wide.mk [0, 12] [18274] [(12, 18274, (9 : ℚ)/10)]) hv).1
            ?_,
          (claim_C1_zero_row [⟨18262, 18274, some ((9 : ℚ)/10)⟩]
            (Wide.mk [12] [18274] [(12, 18274, (9 : ℚ)/10)]) hv).2
            ?_⟩
  · simp [pivot_and_clean, pivotLong, deltaDays, setZeroRow, roundWide,
          trimCoh, hasRow, hasCol, sortInts, insortInt, h]
  · simp [pivot_and_clean_insar, pivotLong, deltaDays, setZeroRow, roundWide,
          trimInsar, hasRow, hasCol, sortInts, insortInt, h]

/-- C4: trimming is idempotent on already-trimmed matrices.  The matrix
`m'` entering the trim step of the pipeline has sorted labels, cells
lying under its labels, and (for any valid table, by
`pipeline_cells_pos`) no non-null cell at a negative row label; under
these data-model invariants, re-trimming the trimmed matrix `m` returns
`m` unchanged, for both the coherence and the InSAR-pair variant. -/
theorem claim_C4_trim_idempotent (m' m : Wide)
    (hrs : m'.rows.Sorted (· ≤ ·)) (hcs : m'.cols.Sorted (· ≤ ·))
    (hwf : ∀ c ∈ m'.cells, c.1 ∈ m'.rows ∧ c.2.1 ∈ m'.cols)
    (hnn : ∀ c ∈ m'.cells, 0 ≤ c.1) :
    (trimCoh m' = some m → trimCoh m = some m) ∧
    (trimInsar m' = some m → trimInsar m = some m) := by
  constructor
  · intro heq
    obtain ⟨L, cF, cL, hL, hF, hC, hw⟩ := (trimCoh_eq_some_iff m' m).mp heq
    have hcellall : ∀ x ∈ m'.cells,
        ((decide (0 ≤ x.1) && decide (x.1 ≤ L)) &&
         (decide (cF ≤ x.2.1) && decide (x.2.1 ≤ cL))) = true := by
      intro x hx
      have hxr : x.1 ∈ m'.rows.filter (fun r => hasRow m' r) :=
        List.mem_filter.mpr ⟨(hwf x hx).1, (hasRow_iff m' x.1).mpr ⟨x, hx, rfl⟩⟩
      have hxc : x.2.1 ∈ m'.cols.filter (fun c => hasCol m' c) :=
        List.mem_filter.mpr ⟨(hwf x hx).2, (hasCol_iff m' x.2.1).mpr ⟨x, hx, rfl⟩⟩
      have h1 : (0 : Int) ≤ x.1 := hnn x hx
      have h2 : x.1 ≤ L := sorted_le_getLast (sortedFilter hrs _) hxr hL
      have h3 : cF ≤ x.2.1 := sorted_head_le (sortedFilter hcs _) hxc hF
      have h4 : x.2.1 ≤ cL := sorted_le_getLast (sortedFilter hcs _) hxc hC
      simp [h1, h2, h3, h4]
    have hrowimp : ∀ r ∈ m'.rows, hasRow m' r = true →
        (decide (0 ≤ r) && decide (r ≤ L)) = true := by
      intro r hr hhas
      have hmem : r ∈ m'.rows.filter (fun r => hasRow m' r) :=
        List.mem_filter.mpr ⟨hr, hhas⟩
      obtain ⟨c, hc, hcr⟩ := (hasRow_iff m' r).mp hhas
      have h1 : (0 : Int) ≤ r := hcr ▸ hnn c hc
      have h2 : r ≤ L := sorted_le_getLast (sortedFilter hrs _) hmem hL
      simp [h1, h2]
    have hcolimp : ∀ c ∈ m'.cols, hasCol m' c = true →
        (decide (cF ≤ c) && decide (c ≤ cL)) = true := by
      intro c hc hhas
      have hmem : c ∈ m'.cols.filter (fun c => hasCol m' c) :=
        List.mem_filter.mpr ⟨hc, hhas⟩
      have h3 := sorted_head_le (sortedFilter hcs _) hmem hF
      have h4 := sorted_le_getLast (sortedFilter hcs _) hmem hC
      simp [h3, h4]
    have hcells : m'.cells.filter (fun x =>
        (decide (0 ≤ x.1) && decide (x.1 ≤ L)) &&
        (decide (cF ≤ x.2.1) && decide (x.2.1 ≤ cL))) = m'.cells :=
      filter_all_true _ _ hcellall
    have hmcells : m.cells = m'.cells := by rw [hw]; exact hcells
    have hmrows : m.rows =
        m'.rows.filter (fun r => decide (0 ≤ r) && decide (r ≤ L)) := by rw [hw]
    have hmcols : m.cols =
        m'.cols.filter (fun c => decide (cF ≤ c) && decide (c ≤ cL)) := by rw [hw]
    have hRowEq : (fun r => hasRow m r) = (fun r => hasRow m' r) := by
      funext r; simp only [hasRow]; rw [hmcells]
    have hColEq : (fun c => hasCol m c) = (fun c => hasCol m' c) := by
      funext c; simp only [hasCol]; rw [hmcells]
    have hrfilt : m.rows.filter (fun r => hasRow m r) =
        m'.rows.filter (fun r => hasRow m' r) := by
      rw [hRowEq, hmrows]
      exact filter_filter_of_imp _ _ _ hrowimp
    have hcfilt : m.cols.filter (fun c => hasCol m c) =
        m'.cols.filter (fun c => hasCol m' c) := by
      rw [hColEq, hmcols]
      exact filter_filter_of_imp _ _ _ hcolimp
    apply (trimCoh_eq_some_iff m m).mpr
    refine ⟨L, cF, cL, by rw [hrfilt]; exact hL, by rw [hcfilt]; exact hF,
            by rw [hcfilt]; exact hC, ?_⟩
    have e1 : m.rows.filter (fun r => decide (0 ≤ r) && decide (r ≤ L)) = m.rows := by
      rw [hmrows]; exact filter_filter_of_imp _ _ _ (fun x _ h => h)
    have e2 : m.cols.filter (fun c => decide (cF ≤ c) && decide (c ≤ cL)) = m.cols := by
      rw [hmcols]; exact filter_filter_of_imp _ _ _ (fun x _ h => h)
    have e3 : m.cells.filter (fun x =>
        (decide (0 ≤ x.1) && decide (x.1 ≤ L)) &&
        (decide (cF ≤ x.2.1) && decide (x.2.1 ≤ cL))) = m.cells := by
      rw [hmcells]; exact hcells
    rw [e1, e2, e3]
  · intro heq
    obtain ⟨fR, L, cF, cL, hfR, hL, hF, hC, hw⟩ := (trimInsar_eq_some_iff m' m).mp heq
    have hcellall : ∀ x ∈ m'.cells,
        ((decide (fR ≤ x.1) && decide (x.1 ≤ L)) &&
         (decide (cF ≤ x.2.1) && decide (x.2.1 ≤ cL))) = true := by
      intro x hx
      have hxr : x.1 ∈ m'.rows.filter (fun r => hasRow m' r) :=
        List.mem_filter.mpr ⟨(hwf x hx).1, (hasRow_iff m' x.1).mpr ⟨x, hx, rfl⟩⟩
      have hxc : x.2.1 ∈ m'.cols.filter (fun c => hasCol m' c) :=
        List.mem_filter.mpr ⟨(hwf x hx).2, (hasCol_iff m' x.2.1).mpr ⟨x, hx, rfl⟩⟩
      have h1 : fR ≤ x.1 := sorted_head_le (sortedFilter hrs _) hxr hfR
      have h2 : x.1 ≤ L := sorted_le_getLast (sortedFilter hrs _) hxr hL
      have h3 : cF ≤ x.2.1 := sorted_head_le (sortedFilter hcs _) hxc hF
      have h4 : x.2.1 ≤ cL := sorted_le_getLast (sortedFilter hcs _) hxc hC
      simp [h1, h2, h3, h4]
    have hrowimp : ∀ r ∈ m'.rows, hasRow m' r = true →
        (decide (fR ≤ r) && decide (r ≤ L)) = true := by
      intro r hr hhas
      have hmem : r ∈ m'.rows.filter (fun r => hasRow m' r) :=
        List.mem_filter.mpr ⟨hr, hhas⟩
      have h1 := sorted_head_le (sortedFilter hrs _) hmem hfR
      have h2 := sorted_le_getLast (sortedFilter hrs _) hmem hL
      simp [h1, h2]
    have hcolimp : ∀ c ∈ m'.cols, hasCol m' c = true →
        (decide (cF ≤ c) && decide (c ≤ cL)) = true := by
      intro c hc hhas
      have hmem : c ∈ m'.cols.filter (fun c => hasCol m' c) :=
        List.mem_filter.mpr ⟨hc, hhas⟩
      have h3 := sorted_head_le (sortedFilter hcs _) hmem hF
      have h4 := sorted_le_getLast (sortedFilter hcs _) hmem hC
      simp [h3, h4]
    have hcells : m'.cells.filter (fun x =>
        (decide (fR ≤ x.1) && decide (x.1 ≤ L)) &&
        (decide (cF ≤ x.2.1) && decide (x.2.1 ≤ cL))) = m'.cells :=
      filter_all_true _ _ hcellall
    have hmcells : m.cells = m'.cells := by rw [hw]; exact hcells
    have hmrows : m.rows =
        m'.rows.filter (fun r => decide (fR ≤ r) && decide (r ≤ L)) := by rw [hw]
    have hmcols : m.cols =
        m'.cols.filter (fun c => decide (cF ≤ c) && decide (c ≤ cL)) := by rw [hw]
    have hRowEq : (fun r => hasRow m r) = (fun r => hasRow m' r) := by
      funext r; simp only [hasRow]; rw [hmcells]
    have hColEq : (fun c => hasCol m c) = (fun c => hasCol m' c) := by
      funext c; simp only [hasCol]; rw [hmcells]
    have hrfilt : m.rows.filter (fun r => hasRow m r) =
        m'.rows.filter (fun r => hasRow m' r) := by
      rw [hRowEq, hmrows]
      exact filter_filter_of_imp _ _ _ hrowimp
    have hcfilt : m.cols.filter (fun c => hasCol m c) =
        m'.cols.filter (fun c => hasCol m' c) := by
      rw [hColEq, hmcols]
      exact filter_filter_of_imp _ _ _ hcolimp
    apply (trimInsar_eq_some_iff m m).mpr
    refine ⟨fR, L, cF, cL, by rw [hrfilt]; exact hfR, by rw [hrfilt]; exact hL,
            by rw [hcfilt]; exact hF, by rw [hcfilt]; exact hC, ?_⟩
    have e1 : m.rows.filter (fun r => decide (fR ≤ r) && decide (r ≤ L)) = m.rows := by
      rw [hmrows]; exact filter_filter_of_imp _ _ _ (fun x _ h => h)
    have e2 : m.cols.filter (fun c => decide (cF ≤ c) && decide (c ≤ cL)) = m.cols := by
      rw [hmcols]; exact filter_filter_of_imp _ _ _ (fun x _ h => h)
    have e3 : m.cells.filter (fun x =>
        (decide (fR ≤ x.1) && decide (x.1 ≤ L)) &&
        (decide (cF ≤ x.2.1) && decide (x.2.1 ≤ cL))) = m.cells := by
      rw [hmcells]; exact hcells
    rw [e1, e2, e3]

/-- Witness for C4: a concrete coherence trim (which drops the negative
row label -3) re-trimmed returns the same matrix, and a concrete InSAR
trim (which drops the null row 0) re-trimmed returns the same matrix. -/
theorem claim_C4_witness :
    trimCoh (Wide.mk [0, 12] [18274] [(12, 18274, (1 : ℚ))]) =
      some (Wide.mk [0, 12] [18274] [(12, 18274, (1 : ℚ))]) ∧
    trimInsar (Wide.mk [12] [18274] [(12, 18274, (1 : ℚ))]) =
      some (Wide.mk [12] [18274] [(12, 18274, (1 : ℚ))]) :=
  ⟨(claim_C4_trim_idempotent
      (Wide.mk [-3, 0, 12] [18274] [(12, 18274, (1 : ℚ))])
      (Wide.mk [0, 12] [18274] [(12, 18274, (1 : ℚ))])
      (by decide) (by decide) (by decide) (by decide)).1 (by rfl),
   (claim_C4_trim_idempotent
      (Wide.mk [0, 12] [18274] [(12, 18274, (1 : ℚ))])
      (Wide.mk [12] [18274] [(12, 18274, (1 : ℚ))])
      (by decide) (by decide) (by decide) (by decide)).2 (by rfl)⟩

/-- Counterexample to C8: for the valid three-record table
[(0, 10, 0.5), (30, 20, null), (0, 30, 0.7)] the trimmed value matrix
has columns [10, 20, 30] (day 20 is kept by the edge trim as an interior
column), but the reference-date matrix drops the record with
second_date < first_date and so has columns [10, 30]: the two column
sets differ. -/
theorem claim_C8_counterexample :
    pivot_and_clean
        [⟨0, 10, some ((1 : ℚ)/2)⟩, ⟨30, 20, none⟩, ⟨0, 30, some ((7 : ℚ)/10)⟩] =
      some ⟨[0, 10, 30], [10, 20, 30],
            [(10, 10, (1 : ℚ)/2), (30, 30, (7 : ℚ)/10)]⟩ ∧
    (pivot_and_clean_dates
        [⟨0, 10, some ((1 : ℚ)/2)⟩, ⟨30, 20, none⟩, ⟨0, 30, some ((7 : ℚ)/10)⟩]
        (Wide.mk [0, 10, 30] [10, 20, 30]
          [(10, 10, (1 : ℚ)/2), (30, 30, (7 : ℚ)/10)])).map
      (fun d => decide (d.cols =
        (Wide.mk [0, 10, 30] [10, 20, 30]
          [(10, 10, (1 : ℚ)/2), (30, 30, (7 : ℚ)/10)]).cols)) = some false := by
  constructor
  · have h1 : round2 ((1 : ℚ)/2) = 1/2 := by norm_num [round2, round_eq]
    have h2 : round2 ((7 : ℚ)/10) = 7/10 := by norm_num [round2, round_eq]
    simp [pivot_and_clean, pivotLong, deltaDays, setZeroRow, roundWide, trimCoh,
          hasRow, hasCol, sortInts, insortInt, h1, h2]
    norm_num [round2, round_eq]
  · rfl

/-- C8 (amended): whenever `pivot_and_clean_dates` produces a matrix,
its columns are the sorted intersection of the second dates of the
records with `second_date >= first_date` with the columns of the value
matrix (a subset of the columns of the value matrix, not always the whole
set), and every non-null cell is the formatted `first_date` of such a
record, keyed by its `(delta_days, second_date)`. -/
theorem claim_C8_dates_matrix (l : List LongRec) (w : Wide) (d : DateWide)
    (heq : pivot_and_clean_dates l w = some d) :
    d.cols.Sorted (· ≤ ·) ∧
    (∀ c : Int, c ∈ d.cols ↔
      ((∃ r ∈ l, ¬ r.second_date < r.first_date ∧ r.second_date = c) ∧ c ∈ w.cols)) ∧
    (∀ x ∈ d.cells, ∃ r ∈ l, ¬ r.second_date < r.first_date ∧
      r.second_date ∈ d.cols ∧ x = (deltaDays r, r.second_date, formatDate r.first_date)) := by
  rw [pivot_and_clean_dates] at heq
  split at heq
  · obtain rfl := (Option.some.inj heq).symm
    refine ⟨sortedFilter (sorted_sortInts _) _, ?_, ?_⟩
    · intro c
      constructor
      · intro hc
        obtain ⟨hcs, hcw⟩ := List.mem_filter.mp hc
        have hcs' : c ∈ (l.filter
            (fun r => !decide (r.second_date < r.first_date))).map
            (fun r => r.second_date) := by
          simpa [mem_sortInts, List.mem_dedup] using hcs
        obtain ⟨r, hr, rfl⟩ := List.mem_map.mp hcs'
        obtain ⟨hrl, hord⟩ := List.mem_filter.mp hr
        exact ⟨⟨r, hrl, by simpa using hord, rfl⟩, by simpa using hcw⟩
      · rintro ⟨⟨r, hrl, hord, rfl⟩, hcw⟩
        refine List.mem_filter.mpr ⟨?_, by simpa using hcw⟩
        have hr : r ∈ l.filter (fun r => !decide (r.second_date < r.first_date)) :=
          List.mem_filter.mpr ⟨hrl, by simpa using hord⟩
        have : r.second_date ∈ (l.filter
            (fun r => !decide (r.second_date < r.first_date))).map
            (fun r => r.second_date) := List.mem_map.mpr ⟨r, hr, rfl⟩
        simpa [mem_sortInts, List.mem_dedup] using this
    · intro x hx
      obtain ⟨r, hr, rfl⟩ := List.mem_map.mp hx
      obtain ⟨hrdrop, hcol⟩ := List.mem_filter.mp hr
      obtain ⟨hrl, hord⟩ := List.mem_filter.mp hrdrop
      exact ⟨r, hrl, by simpa using hord, by simpa using hcol, rfl⟩
  · cases heq

/-- Witness for C8 at the counterexample table: the produced
reference-date matrix has sorted columns [10, 30]. -/
theorem claim_C8_witness :
    (DateWide.mk [10, 30] [10, 30]
      [(10, 10, formatDate 0), (30, 30, formatDate 0)]).cols.Sorted (· ≤ ·) :=
  (claim_C8_dates_matrix
    [⟨0, 10, some ((1 : ℚ)/2)⟩, ⟨30, 20, none⟩, ⟨0, 30, some ((7 : ℚ)/10)⟩]
    (Wide.mk [0, 10, 30] [10, 20, 30]
      [(10, 10, (1 : ℚ)/2), (30, 30, (7 : ℚ)/10)])
    (DateWide.mk [10, 30] [10, 30]
      [(10, 10, formatDate 0), (30, 30, formatDate 0)])
    (by rfl)).1

/-- Length of a Python slice: `min (b - a)` and what remains after `a`. -/
theorem strSlice_length (s : String) (a b : Nat) :
    (strSlice s a b).length = min (b - a) (s.length - a) := by
  show ((s.data.drop a).take (b - a)).length = min (b - a) (s.data.length - a)
  rw [List.length_take, List.length_drop]

/-- C9: `parse_dates` fails exactly when the input is shorter than 19
characters or one of the character slices [0:8] and [12:20] is not an
8-character all-digit string; when both slices are 8-digit strings it
returns the two slices formatted as `yyyy/mm/dd - yyyy/mm/dd`, ignoring
the characters at positions 8-11 and checking no calendar validity. -/
theorem claim_C9_parse_dates (s : String) :
    ((parse_dates s).isOk = false ↔
      s.length < 19 ∨
      ¬(pyIsDigit (strSlice s 0 8) = true ∧ (strSlice s 0 8).length = 8) ∨
      ¬(pyIsDigit (strSlice s 12 20) = true ∧ (strSlice s 12 20).length = 8)) ∧
    (pyIsDigit (strSlice s 0 8) = true → (strSlice s 0 8).length = 8 →
     pyIsDigit (strSlice s 12 20) = true → (strSlice s 12 20).length = 8 →
     parse_dates s =
       .ok (fmtDate8 (strSlice s 0 8) ++ " - " ++ fmtDate8 (strSlice s 12 20))) := by
  have hlen20 : (strSlice s 12 20).length = 8 → 20 ≤ s.length := by
    rw [strSlice_length]; omega
  have bool_eq_false : ∀ {b : Bool}, ¬(b = true) → b = false := by
    intro b h
    cases b
    · rfl
    · exact absurd rfl h
  constructor
  · by_cases h19 : s.length < 19
    · rw [parse_dates, if_pos h19]
      exact iff_of_true rfl (Or.inl h19)
    · rw [parse_dates, if_neg h19]
      by_cases hA : (pyIsDigit (strSlice s 0 8) &&
          ((strSlice s 0 8).length == 8)) = true
      · have hA' := hA
        rw [Bool.and_eq_true, beq_iff_eq] at hA'
        rw [hA, Bool.not_true, if_neg Bool.false_ne_true]
        by_cases hB : (pyIsDigit (strSlice s 12 20) &&
            ((strSlice s 12 20).length == 8)) = true
        · have hB' := hB
          rw [Bool.and_eq_true, beq_iff_eq] at hB'
          rw [hB, Bool.not_true, if_neg Bool.false_ne_true]
          refine iff_of_false (fun h => Bool.noConfusion h) ?_
          rintro (h | h | h)
          · exact h19 h
          · exact h hA'
          · exact h hB'
        · have hB' : ¬(pyIsDigit (strSlice s 12 20) = true ∧
              (strSlice s 12 20).length = 8) := by
            rw [Bool.and_eq_true, beq_iff_eq] at hB; exact hB
          rw [bool_eq_false hB, Bool.not_false, if_pos rfl]
          exact iff_of_true rfl (Or.inr (Or.inr hB'))
      · have hA' : ¬(pyIsDigit (strSlice s 0 8) = true ∧
            (strSlice s 0 8).length = 8) := by
          rw [Bool.and_eq_true, beq_iff_eq] at hA; exact hA
        rw [bool_eq_false hA, Bool.not_false, if_pos rfl]
        exact iff_of_true rfl (Or.inr (Or.inl hA'))
  · intro hA1 hA2 hB1 hB2
    have h19 : ¬(s.length < 19) := by
      have := hlen20 hB2; omega
    rw [parse_dates, if_neg h19]
    have hA : (pyIsDigit (strSlice s 0 8) &&
        ((strSlice s 0 8).length == 8)) = true := by
      rw [hA1, hA2]; rfl
    have hB : (pyIsDigit (strSlice s 12 20) &&
        ((strSlice s 12 20).length == 8)) = true := by
      rw [hB1, hB2]; rfl
    rw [hA, Bool.not_true, if_neg Bool.false_ne_true,
        hB, Bool.not_true, if_neg Bool.false_ne_true]

/-- Witness for C9 at the docstring example "20220821_HH_20220914". -/
theorem claim_C9_witness :
    parse_dates "20220821_HH_20220914" = .ok "2022/08/21 - 2022/09/14" := by
  have h := (claim_C9_parse_dates "20220821_HH_20220914").2
    (by decide) (by decide) (by decide) (by decide)
  rw [h]
  rfl
